import Mathlib

/-!
Shallow embedding of the junk-estimator repository's loose JSON extraction
and request-admission pipeline (src/api/estimate.ts, the upload-signing
handler, and the shared extractJsonLoose helper), with theorems checking the
specification's claims about them.

Conventions of the embedding:
* JS strings are modelled as Lean `String`/`List Char`. JS string length
  (UTF-16 code units) is modelled by `utf16Length`.
* JS numbers from `JSON.parse` are modelled as exact rationals (`Rat`); the
  claims under scrutiny never depend on float rounding.
* `Date.now()` instants are `Nat` milliseconds.
* External collaborators (the model API, the blob store, `readJson`, the
  URL validity test used by the body schema) enter as explicit parameters.
-/

namespace JunkEstimator

/-- JSON values as produced by `JSON.parse`: numbers as exact rationals,
objects as association lists with unique keys in first-occurrence order
(duplicate keys collapse to the last value, as in JS). -/
inductive Json where
  | null : Json
  | bool (b : Bool) : Json
  | num (q : Rat) : Json
  | str (s : String) : Json
  | arr (elems : List Json) : Json
  | obj (fields : List (String × Json)) : Json
deriving Repr

/-- Insertion-order, last-value-wins update of an object field list: the
semantics of repeated keys in a JS object literal / `JSON.parse`. -/
def insertKV : List (String × Json) → String × Json → List (String × Json)
  | [], kv => [kv]
  | (k, v) :: rest, kv =>
      if k = kv.1 then (k, kv.2) :: rest else (k, v) :: insertKV rest kv

/-- Collapse duplicate keys of parsed object members, JS-style. -/
def objFold (fields : List (String × Json)) : List (String × Json) :=
  fields.foldl insertKV []

/-- Whitespace accepted by `JSON.parse` between tokens. -/
def isJsonWs (c : Char) : Bool :=
  c = ' ' || c = '\t' || c = '\n' || c = '\r'

def skipWs (cs : List Char) : List Char :=
  cs.dropWhile isJsonWs

def digitVal (c : Char) : Option Nat :=
  if '0' ≤ c ∧ c ≤ '9' then some (c.toNat - '0'.toNat) else none

def hexVal (c : Char) : Option Nat :=
  if '0' ≤ c ∧ c ≤ '9' then some (c.toNat - '0'.toNat)
  else if 'a' ≤ c ∧ c ≤ 'f' then some (c.toNat - 'a'.toNat + 10)
  else if 'A' ≤ c ∧ c ≤ 'F' then some (c.toNat - 'A'.toNat + 10)
  else none

def isDigit (c : Char) : Bool := '0' ≤ c && c ≤ '9'

def digitsToNat (cs : List Char) : Nat :=
  cs.foldl (fun acc c => 10 * acc + (digitVal c).getD 0) 0

/-- `10 ^ e` over the rationals, for a possibly negative exponent. -/
def tenPow (e : Int) : Rat :=
  if 0 ≤ e then (10 : Rat) ^ e.toNat else 1 / (10 : Rat) ^ (-e).toNat

/-- The numeric value of a JSON number from its parts: sign, integer digits,
fraction digits and decimal exponent. -/
def ratOfParts (neg : Bool) (intD fracD : List Char) (exp : Int) : Rat :=
  let m : Rat := (digitsToNat (intD ++ fracD) : Rat)
  let q := m * tenPow (exp - (fracD.length : Int))
  if neg then -q else q

/-- Decode the four hex digits of a `\uXXXX` escape. -/
def hex4 (a b c d : Char) : Option Nat :=
  match hexVal a, hexVal b, hexVal c, hexVal d with
  | some x, some y, some z, some w => some (((x * 16 + y) * 16 + z) * 16 + w)
  | _, _, _, _ => none

def isHighSurrogate (n : Nat) : Bool := 0xD800 ≤ n && n ≤ 0xDBFF
def isLowSurrogate (n : Nat) : Bool := 0xDC00 ≤ n && n ≤ 0xDFFF

/-- A code point as a `Char`; a lone surrogate (legal in a JS string, not
representable as a Lean `Char`) becomes U+FFFD. Claims never hinge on it. -/
def charOfCode (n : Nat) : Char :=
  if n.isValidChar then Char.ofNat n else '�'

/-- Lex the body of a JSON string literal (after the opening quote) into the
UTF-16 code units of the resulting JS string (a character above U+FFFF stands
for its surrogate pair), returning them with the input after the closing
quote. Rejects unescaped control characters and malformed escapes, as
`JSON.parse` does. -/
def lexString : List Char → Option (List Nat × List Char)
  | [] => none
  | '"' :: rest => some ([], rest)
  | '\\' :: 'u' :: a :: b :: c :: d :: rest =>
      (match hex4 a b c d with
       | some n => (lexString rest).map (fun r => (n :: r.1, r.2))
       | none => none)
  | '\\' :: e :: rest =>
      (match
        (if e = '"' then some '"'.toNat
         else if e = '\\' then some '\\'.toNat
         else if e = '/' then some '/'.toNat
         else if e = 'b' then some 8
         else if e = 'f' then some 12
         else if e = 'n' then some '\n'.toNat
         else if e = 'r' then some '\r'.toNat
         else if e = 't' then some '\t'.toNat
         else none : Option Nat) with
       | some n => (lexString rest).map (fun r => (n :: r.1, r.2))
       | none => none)
  | c :: rest =>
      if c.toNat < 0x20 then none
      else (lexString rest).map (fun r => (c.toNat :: r.1, r.2))

mutual

/-- A JS string, given as code units (a unit above U+FFFF standing for an
already-combined pair), as Lean characters: surrogate pairs combine, and a
lone surrogate (fine in JS, unrepresentable as a `Char`) becomes U+FFFD via
`charOfCode`. -/
def unitsToChars : List Nat → List Char
  | [] => []
  | u :: us =>
      if isHighSurrogate u then afterHigh u us
      else charOfCode u :: unitsToChars us
termination_by structural us => us

/-- Continuation of `unitsToChars` after a high-surrogate unit `u`. -/
def afterHigh (u : Nat) : List Nat → List Char
  | [] => [charOfCode u]
  | v :: us =>
      if isLowSurrogate v then
        charOfCode (0x10000 + (u - 0xD800) * 0x400 + (v - 0xDC00)) :: unitsToChars us
      else
        charOfCode u ::
          (if isHighSurrogate v then afterHigh v us else charOfCode v :: unitsToChars us)
termination_by structural us => us

end

/-- Body of a JSON string literal, after the opening quote: the decoded
characters and the input after the closing quote. -/
def parseStringBody (cs : List Char) : Option (List Char × List Char) :=
  (lexString cs).map (fun r => (unitsToChars r.1, r.2))

/-- JSON number literal at the head of the input: its value and the rest.
Follows the JSON grammar (`-?(0|[1-9][0-9]*)(\.[0-9]+)?([eE][+-]?[0-9]+)?`). -/
def parseNum (cs : List Char) : Option (Json × List Char) :=
  let (neg, cs1) := match cs with
    | '-' :: r => (true, r)
    | _ => (false, cs)
  let intPart : Option (List Char × List Char) := match cs1 with
    | '0' :: r => some (['0'], r)
    | c :: _ =>
        if isDigit c && c ≠ '0' then
          some (cs1.takeWhile isDigit, cs1.dropWhile isDigit)
        else none
    | [] => none
  match intPart with
  | none => none
  | some (intD, rest1) =>
    let fracPart : Option (List Char × List Char) := match rest1 with
      | '.' :: r =>
          let ds := r.takeWhile isDigit
          if ds.isEmpty then none else some (ds, r.dropWhile isDigit)
      | _ => some ([], rest1)
    match fracPart with
    | none => none
    | some (fracD, rest2) =>
      let expPart : Option (Int × List Char) := match rest2 with
        | 'e' :: r | 'E' :: r =>
          let (esign, r2) : Bool × List Char := match r with
            | '+' :: rr => (false, rr)
            | '-' :: rr => (true, rr)
            | _ => (false, r)
          let ds := r2.takeWhile isDigit
          if ds.isEmpty then none
          else
            let e : Int := (digitsToNat ds : Int)
            some (if esign then -e else e, r2.dropWhile isDigit)
        | _ => some (0, rest2)
      match expPart with
      | none => none
      | some (e, rest3) => some (Json.num (ratOfParts neg intD fracD e), rest3)

mutual

/-- JSON value at the head of the input (leading whitespace skipped), with
the remaining input. Fuel bounds recursion depth; `jsonParse` supplies
enough for any input of its length. -/
def parseVal : Nat → List Char → Option (Json × List Char)
  | 0, _ => none
  | Nat.succ fuel, cs =>
    match skipWs cs with
    | 'n' :: 'u' :: 'l' :: 'l' :: rest => some (Json.null, rest)
    | 't' :: 'r' :: 'u' :: 'e' :: rest => some (Json.bool true, rest)
    | 'f' :: 'a' :: 'l' :: 's' :: 'e' :: rest => some (Json.bool false, rest)
    | '"' :: rest =>
        (parseStringBody rest).map (fun r => (Json.str (String.mk r.1), r.2))
    | '[' :: rest =>
        (match skipWs rest with
         | ']' :: r2 => some (Json.arr [], r2)
         | _ => (parseElems fuel rest).map (fun r => (Json.arr r.1, r.2)))
    | '{' :: rest =>
        (match skipWs rest with
         | '}' :: r2 => some (Json.obj [], r2)
         | _ => (parseMembers fuel rest).map (fun r => (Json.obj (objFold r.1), r.2)))
    | cs2 => parseNum cs2
termination_by structural fuel => fuel

/-- One or more comma-separated array elements, then the closing bracket. -/
def parseElems : Nat → List Char → Option (List Json × List Char)
  | 0, _ => none
  | Nat.succ fuel, cs =>
    match parseVal fuel cs with
    | none => none
    | some (v, rest) =>
      match skipWs rest with
      | ',' :: r2 =>
          (parseElems fuel r2).map (fun r => (v :: r.1, r.2))
      | ']' :: r2 => some ([v], r2)
      | _ => none
termination_by structural fuel => fuel

/-- One or more comma-separated object members, then the closing brace. -/
def parseMembers : Nat → List Char → Option (List (String × Json) × List Char)
  | 0, _ => none
  | Nat.succ fuel, cs =>
    match skipWs cs with
    | '"' :: rest =>
      (match parseStringBody rest with
       | none => none
       | some (key, rest1) =>
         match skipWs rest1 with
         | ':' :: rest2 =>
           (match parseVal fuel rest2 with
            | none => none
            | some (v, rest3) =>
              match skipWs rest3 with
              | ',' :: r4 =>
                  (parseMembers fuel r4).map (fun r => ((String.mk key, v) :: r.1, r.2))
              | '}' :: r4 => some ([(String.mk key, v)], r4)
              | _ => none)
         | _ => none)
    | _ => none
termination_by structural fuel => fuel

end

/-- `JSON.parse`: whole-input parse, trailing whitespace allowed, anything
else after the value is an error. The fuel `2 * length + 2` always suffices:
along any call chain, at most two units of fuel are spent per input
character consumed (one for a `parseVal` entered from `parseElems` or
`parseMembers` without consuming a character, one for the step that consumed
the bracket, digit or quote before it), plus one unit for the initial call. -/
def jsonParse (s : String) : Option Json :=
  match parseVal (2 * s.data.length + 2) s.data with
  | some (v, rest) => if skipWs rest = [] then some v else none
  | none => none

/-! ### JS string helpers -/

/-- The character class of the JS regex `\s`, which is also the set trimmed
by `String.prototype.trim` (WhiteSpace ∪ LineTerminator). -/
def isJsWs (c : Char) : Bool :=
  let n := c.toNat
  n = 0x09 || n = 0x0A || n = 0x0B || n = 0x0C || n = 0x0D || n = 0x20 ||
  n = 0xA0 || n = 0x1680 || (0x2000 ≤ n && n ≤ 0x200A) || n = 0x2028 ||
  n = 0x2029 || n = 0x202F || n = 0x205F || n = 0x3000 || n = 0xFEFF

/-- `String.prototype.trim` on the character list. -/
def jsTrimList (cs : List Char) : List Char :=
  ((cs.dropWhile isJsWs).reverse.dropWhile isJsWs).reverse

def jsTrim (s : String) : String :=
  String.mk (jsTrimList s.data)

/-- JS string length: UTF-16 code units. -/
def utf16Length (s : String) : Nat :=
  s.data.foldl (fun acc c => acc + (if c.toNat < 0x10000 then 1 else 2)) 0

/-- ASCII-only case folding, as the case-insensitive `/.../i` regex flag
canonicalizes pattern and input letters (the patterns at hand are ASCII, and
a non-ASCII character never canonicalizes to an ASCII one). -/
def lowerAscii (c : Char) : Char :=
  if 'A' ≤ c ∧ c ≤ 'Z' then Char.ofNat (c.toNat + 32) else c

/-- Does `pat` (already lowercase ASCII) start the input, case-insensitively? -/
def ciHasPrefixAt : List Char → List Char → Bool
  | [], _ => true
  | _ :: _, [] => false
  | p :: ps, c :: cs => lowerAscii c = p && ciHasPrefixAt ps cs

/-- `/pat/i.test s`: case-insensitive substring search. -/
def ciContains (pat : List Char) : List Char → Bool
  | [] => pat.isEmpty
  | c :: cs => ciHasPrefixAt pat (c :: cs) || ciContains pat cs

/-! ### The loose JSON extractor (`extractJsonLoose`) -/

/-- The characters before the first ` ``` ` of the input, and the input after
that closing marker; none if the input has no ` ``` `. The lazy interior of
the fence regex. -/
def splitAtClose : List Char → Option (List Char)
  | '`' :: '`' :: '`' :: _ => some []
  | c :: cs => (splitAtClose cs).map (c :: ·)
  | [] => none

/-- The rest of the input after a leading ` ```json ` opener (label matched
case-insensitively, as the regex flag `i` does). -/
def openFence : List Char → Option (List Char)
  | '`' :: '`' :: '`' :: a :: b :: c :: d :: rest =>
      if lowerAscii a = 'j' ∧ lowerAscii b = 's' ∧ lowerAscii c = 'o' ∧ lowerAscii d = 'n' then
        some rest
      else none
  | _ => none

/-- The interior of the first match of the fence regex: the leftmost
` ```json ` opener that is followed by a later ` ``` `, with the (lazy)
interior between them. When the leftmost opener has no closer after it, no
later opener has one either (a closer for it would also close the first),
so scanning stops there, as the regex does. -/
def fenceAux : List Char → Option (List Char)
  | [] => none
  | c :: cs =>
      match openFence (c :: cs) with
      | some rest => splitAtClose rest
      | none => fenceAux cs

def fenceInterior (s : String) : Option String :=
  (fenceAux s.data).map String.mk

/-- The brace-span fallback: from the first `\x7b` through the last `\x7d`,
provided the latter comes strictly after the former. -/
def braceSpanList (cs : List Char) : Option (List Char) :=
  let fromFirst := cs.dropWhile (· ≠ '{')
  match fromFirst with
  | [] => none
  | _ :: rest =>
      if '}' ∈ rest then
        some ((fromFirst.reverse.dropWhile (· ≠ '}')).reverse)
      else none

def braceSpan (s : String) : Option String :=
  (braceSpanList s.data).map String.mk

mutual

/-- `raw.replace(/,\s*c/g, c)` for a single closing character `c`: each
comma followed by optional `\s` whitespace and `c` collapses to `c`; a
comma that does not begin such a match is kept, and (as the global regex
does) scanning resumes at the next possible match start — whitespace cannot
open a match, so that is the first non-whitespace character after it. -/
def replaceCommaClose (close : Char) : List Char → List Char
  | [] => []
  | c :: cs =>
      if c = ',' then commaRun close cs []
      else c :: replaceCommaClose close cs
termination_by structural cs => cs

/-- Inside a candidate match: a comma has been read and `ws` holds the
whitespace seen since (reversed). Meeting `close` completes the match;
meeting another comma abandons this one and starts a fresh candidate. -/
def commaRun (close : Char) : List Char → List Char → List Char
  | [], ws => ',' :: ws.reverse
  | c :: cs, ws =>
      if c = close then close :: replaceCommaClose close cs
      else if isJsWs c then commaRun close cs (c :: ws)
      else if c = ',' then (',' :: ws.reverse) ++ commaRun close cs []
      else (',' :: ws.reverse) ++ (c :: replaceCommaClose close cs)
termination_by structural cs => cs

end

/-- The trailing-comma repair:
`raw.replace(/,\s*\x7d/g, "\x7d").replace(/,\s*\x5d/g, "\x5d")`. -/
def fixTrailingCommas (s : String) : String :=
  String.mk (replaceCommaClose ']' (replaceCommaClose '}' s.data))

/-- `extractJsonLoose` (src/api/estimate.ts:79-106): prefer the interior of
the first ` ```json ` fence, else the brace span; parse strictly, retry once
after the trailing-comma repair, else null. An empty candidate string is
falsy in JS (`if (!raw) return null`), hence the empty-string guard. -/
def extractJsonLoose (text : String) : Option Json :=
  let candidate := fenceInterior text
  let raw := match candidate with
    | some c => some c
    | none => braceSpan text
  match raw with
  | none => none
  | some r =>
      if r = "" then none
      else
        match jsonParse r with
        | some v => some v
        | none =>
            match jsonParse (fixTrailingCommas r) with
            | some v => some v
            | none => none

/-! ### Shared admission helpers -/

def RATE_MAX : Nat := 5
def RATE_WINDOW_MS : Nat := 10 * 60 * 1000

/-- `rateLimit` (identical in src/api/estimate.ts:54-61 and the upload-signing
handler): state is the timestamp list stored for one client identifier.
Returns the admission verdict and the list as stored afterwards — on
rejection `rateCache.set` is not called, so the stored list is unchanged. -/
def rateLimit (now : Nat) (arr0 : List Nat) : Bool × List Nat :=
  let arr := arr0.filter (fun t => now - t < RATE_WINDOW_MS)
  if RATE_MAX ≤ arr.length then (false, arr0)
  else (true, arr ++ [now])

/-- JS `env.split(",")` on the character list. -/
def splitComma : List Char → List (List Char)
  | [] => [[]]
  | c :: cs =>
      if c = ',' then [] :: splitComma cs
      else
        match splitComma cs with
        | p :: ps => (c :: p) :: ps
        | [] => [[c]]

/-- `(process.env.ALLOWED_ORIGINS || "").split(",").map(trim).filter(Boolean)`. -/
def parseAllowedOrigins (env : String) : List String :=
  (((splitComma env.data).map jsTrimList).map String.mk).filter (fun s => s ≠ "")

/-- The generic customer-facing rejection line used by both handlers. -/
def GENERIC_TRY_AGAIN : String :=
  "We couldn’t process your request right now. Please try again in a few minutes."

/-- The default `FALLBACK_CUSTOMER_LINE`. -/
def FALLBACK_LINE_DEFAULT : String :=
  "Sorry—we couldn\'t generate a quote right now. Please text 860-207-5259 with your message and photos for a fast manual quote."

/-! ### Body schema (zod `BodySchema`) -/

/-- A step of a zod issue path: an object key or an array index. -/
inductive PathSeg where
  | field (name : String)
  | idx (i : Nat)
deriving DecidableEq, Repr

/-- A zod validation issue, kept to its code and path. -/
structure ZodIssue where
  code : String
  path : List PathSeg
deriving DecidableEq, Repr

def lookupField (fields : List (String × Json)) (k : String) : Option Json :=
  match fields with
  | [] => none
  | (k2, v) :: rest => if k2 = k then some v else lookupField rest k

/-- `z.string().trim().min(lo).max(hi)` applied to the field `name` of an
object: the issues, and the trimmed value on success. -/
def checkString (fields : List (String × Json)) (name : String) (lo hi : Nat) :
    List ZodIssue × Option String :=
  match lookupField fields name with
  | some (Json.str s) =>
      let t := jsTrim s
      if utf16Length t < lo then ([⟨"too_small", [PathSeg.field name]⟩], none)
      else if hi < utf16Length t then ([⟨"too_big", [PathSeg.field name]⟩], none)
      else ([], some t)
  | _ => ([⟨"invalid_type", [PathSeg.field name]⟩], none)

/-- Issues of the elements of `image_urls`: each must be a string accepted
by the URL check (`z.string().url()`, i.e. `new URL(...)` — an external
collaborator passed in as `urlValid`). -/
def urlElemIssues (urlValid : String → Bool) : Nat → List Json → List ZodIssue
  | _, [] => []
  | i, x :: xs =>
      (match x with
       | Json.str s =>
           if urlValid s then []
           else [⟨"invalid_string", [PathSeg.field "image_urls", PathSeg.idx i]⟩]
       | _ => [⟨"invalid_type", [PathSeg.field "image_urls", PathSeg.idx i]⟩]) ++
      urlElemIssues urlValid (i + 1) xs

def asStrings : List Json → Option (List String)
  | [] => some []
  | Json.str s :: xs => (asStrings xs).map (s :: ·)
  | _ :: _ => none

/-- `z.array(z.string().url()).max(maxFiles)` on the field `image_urls`. -/
def checkUrls (maxFiles : Nat) (urlValid : String → Bool)
    (fields : List (String × Json)) : List ZodIssue × Option (List String) :=
  match lookupField fields "image_urls" with
  | some (Json.arr xs) =>
      let maxIss : List ZodIssue :=
        if maxFiles < xs.length then [⟨"too_big", [PathSeg.field "image_urls"]⟩] else []
      let elemIss := urlElemIssues urlValid 0 xs
      if maxIss ++ elemIss = [] then ([], asStrings xs)
      else (maxIss ++ elemIss, none)
  | some _ => ([⟨"invalid_type", [PathSeg.field "image_urls"]⟩], none)
  | none => ([⟨"invalid_type", [PathSeg.field "image_urls"]⟩], none)

/-- The validated request body (zod output: strings already trimmed). -/
structure RequestBody where
  zip : String
  description : String
  image_urls : List String
deriving Repr

/-- `BodySchema.safeParse` (src/api/estimate.ts:27-31): an object with
`zip` (trimmed length 5–10), `description` (trimmed length 3–5000) and
`image_urls` (array of URL strings, at most `maxFiles`); field issues are
collected in shape order. -/
def safeParseBody (maxFiles : Nat) (urlValid : String → Bool) (j : Json) :
    Except (List ZodIssue) RequestBody :=
  match j with
  | Json.obj fields =>
      let zipR := checkString fields "zip" 5 10
      let descR := checkString fields "description" 3 5000
      let urlR := checkUrls maxFiles urlValid fields
      let issues := zipR.1 ++ descR.1 ++ urlR.1
      if issues = [] then Except.ok ⟨zipR.2.getD "", descR.2.getD "", urlR.2.getD []⟩
      else Except.error issues
  | _ => Except.error [⟨"invalid_type", []⟩]

/-! ### The estimate handler (src/api/estimate.ts) -/

namespace Estimate

/-- Environment-derived configuration of the estimate handler. `urlValid`
stands for the external URL constructor zod consults. -/
structure Config where
  allowedOrigins : List String
  fallbackLine : String
  maxFiles : Nat
  urlValid : String → Bool

/-- An inbound request, its body given as the outcome of `readJson`
(`Except.error` = the promise rejected on malformed JSON). -/
structure Request where
  method : String
  origin : Option String
  ip : String
  body : Except Unit Json

/-- The external world the admitted request touches: the model call
(`Except.error` = the API threw; otherwise the `output_text` string, the
empty string when absent) and whether the blob `put` succeeds. -/
structure Oracle where
  modelText : Except Unit String
  putOk : Bool

/-- The observable response of the handler. -/
inductive Resp where
  | preflight
  | methodNotAllowed
  | forbidden
  | tooMany (customer_line : String)
  | badRequest (issues : List ZodIssue)
  | ok (serviceable : Bool) (customer_line : String) (data : Json)
deriving Repr

/-- Response plus the per-client rate state as stored afterwards, plus
whether `rateLimit` was invoked at all. -/
structure Outcome where
  resp : Resp
  rate : List Nat
  rateInvoked : Bool

/-- `!(!origin || !allowedOrigins.includes(origin))`. -/
def originAllowed (allowed : List String) : Option String → Bool
  | some o => allowed.contains o
  | none => false

/-- `(text.split("\n")[0] || FALLBACK_LINE).trim()`. -/
def customerLine0 (fallback : String) (text : String) : String :=
  let first := String.mk (text.data.takeWhile (· ≠ '\n'))
  jsTrim (if first = "" then fallback else first)

/-- `parsedJson?.serviceable` when it is a boolean. -/
def serviceableField (pj : Option Json) : Option Bool :=
  match pj with
  | some (Json.obj fields) =>
      match lookupField fields "serviceable" with
      | some (Json.bool b) => some b
      | _ => none
  | _ => none

/-- `typeof parsedJson?.serviceable === "boolean" ? parsedJson.serviceable
: !/outside/i.test(customer_line)`. -/
def serviceableFrom (pj : Option Json) (customer_line : String) : Bool :=
  match serviceableField pj with
  | some b => b
  | none => ! ciContains ("outside".data) customer_line.data

/-- The estimate handler (src/api/estimate.ts:109-239), as a function of the
request, the external-call outcomes, the stored rate state of the caller's
identifier and the current instant. Failures after rate admission
(body read, model call, storage write) land in the catch-all, which
responds 200 with the fallback body. -/
def handler (cfg : Config) (req : Request) (oracle : Oracle)
    (rate0 : List Nat) (now : Nat) : Outcome :=
  if req.method = "OPTIONS" then ⟨Resp.preflight, rate0, false⟩
  else if req.method ≠ "POST" then ⟨Resp.methodNotAllowed, rate0, false⟩
  else if ! originAllowed cfg.allowedOrigins req.origin then ⟨Resp.forbidden, rate0, false⟩
  else
    match rateLimit now rate0 with
    | (false, rate1) => ⟨Resp.tooMany GENERIC_TRY_AGAIN, rate1, true⟩
    | (true, rate1) =>
      match req.body with
      | Except.error _ => ⟨Resp.ok true cfg.fallbackLine (Json.obj []), rate1, true⟩
      | Except.ok bodyJson =>
        match safeParseBody cfg.maxFiles cfg.urlValid bodyJson with
        | Except.error issues => ⟨Resp.badRequest issues, rate1, true⟩
        | Except.ok _body =>
          match oracle.modelText with
          | Except.error _ => ⟨Resp.ok true cfg.fallbackLine (Json.obj []), rate1, true⟩
          | Except.ok rawText =>
            let text := jsTrim rawText
            let customer_line := customerLine0 cfg.fallbackLine text
            let parsedJson := extractJsonLoose text
            let serviceable := serviceableFrom parsedJson customer_line
            if oracle.putOk then
              let line2 := if customer_line = "" then cfg.fallbackLine else customer_line
              ⟨Resp.ok serviceable line2 (parsedJson.getD (Json.obj [])), rate1, true⟩
            else ⟨Resp.ok true cfg.fallbackLine (Json.obj []), rate1, true⟩

end Estimate

/-! ### The upload-signing handler -/

namespace UploadSign

/-- Environment-derived configuration of the upload-signing handler. -/
structure Config where
  allowedOrigins : List String
  maxFiles : Nat
  maxFileMB : Nat
  maxTotalMB : Nat

/-- The fields read out of the client-provided `clientPayload` JSON (an
absent field is `none`; the `try \x7b ... \x7d catch \x7b\x7d` around
`JSON.parse(clientPayload)` leaves all fields absent on bad payload). -/
structure Meta where
  size : Option Nat
  batchTotal : Option Nat
  batchId : Option String

/-- `meta.size ? meta.size / (1024 * 1024) : 0` (`0` is falsy in JS). -/
def metaSizeMB (meta : Meta) : Rat :=
  match meta.size with
  | some n => if n ≠ 0 then (n : Rat) / (1024 * 1024) else 0
  | none => 0

/-- `meta.batchTotal ? meta.batchTotal / (1024 * 1024) : 0`. -/
def metaTotalMB (meta : Meta) : Rat :=
  match meta.batchTotal with
  | some n => if n ≠ 0 then (n : Rat) / (1024 * 1024) else 0
  | none => 0

/-- `onBeforeGenerateToken` (upload-signing handler): size checks, then the
per-batch count. Returns the verdict (an `Except.error` models the thrown
`Error`) together with the count now stored for the batch identifier
(`none` = `batchCounts` untouched). The store happens before the limit
check, so a rejected attempt still stores the incremented count. -/
def onBeforeGenerateToken (cfg : Config) (meta : Meta) (count0 : Option Nat) :
    Except String Unit × Option Nat :=
  let sizeMB : Rat := metaSizeMB meta
  let totalMB : Rat := metaTotalMB meta
  if (cfg.maxFileMB : Rat) < sizeMB then
    (Except.error ("File exceeds " ++ toString cfg.maxFileMB ++ " MB"), none)
  else if (cfg.maxTotalMB : Rat) < totalMB then
    (Except.error ("Batch exceeds " ++ toString cfg.maxTotalMB ++ " MB"), none)
  else
    let batchId := meta.batchId.getD ""
    if batchId ≠ "" then
      let count := count0.getD 0 + 1
      if cfg.maxFiles < count then
        (Except.error ("Batch exceeds " ++ toString cfg.maxFiles ++ " files"), some count)
      else (Except.ok (), some count)
    else (Except.ok (), none)

/-- A run of `n` successive token requests for one batch identifier against
the same metadata: the count stored in `batchCounts` afterwards, and how
many of the attempts were admitted (did not throw). -/
def runBatchAttempts (cfg : Config) (meta : Meta) : Nat → Option Nat × Nat
  | 0 => (none, 0)
  | n + 1 =>
      let prev := runBatchAttempts cfg meta n
      let step := onBeforeGenerateToken cfg meta prev.1
      (match step.2 with
       | some c => some c
       | none => prev.1,
       prev.2 + (match step.1 with | Except.ok _ => 1 | Except.error _ => 0))

/-- An inbound upload-signing request; `body` is the outcome of `readJson`,
reduced to the metadata `onBeforeGenerateToken` reads. -/
structure Request where
  method : String
  origin : Option String
  ip : String
  body : Except Unit Meta

/-- The observable response of the upload-signing handler. -/
inductive Resp where
  | preflight
  | methodNotAllowed
  | forbidden
  | tooMany (msg : String)
  | badRequest (error : String) (message : String)
  | ok
deriving DecidableEq, Repr

/-- Response plus the stored rate list and stored batch count afterwards. -/
structure Outcome where
  resp : Resp
  rate : List Nat
  batchCount : Option Nat

/-- The catch clause: `/exceeds/i.test(err.message) ? err.message :
<generic line>`. -/
def catchMessage (msg : String) : String :=
  if ciContains ("exceeds".data) msg.data then msg else GENERIC_TRY_AGAIN

/-- The upload-signing handler: same gate order as the estimate handler,
except that an empty allow-list skips the origin check entirely. -/
def handler (cfg : Config) (req : Request) (rate0 : List Nat) (now : Nat)
    (count0 : Option Nat) : Outcome :=
  if req.method = "OPTIONS" then ⟨Resp.preflight, rate0, count0⟩
  else if req.method ≠ "POST" then ⟨Resp.methodNotAllowed, rate0, count0⟩
  else if 0 < cfg.allowedOrigins.length &&
      ! Estimate.originAllowed cfg.allowedOrigins req.origin then
    ⟨Resp.forbidden, rate0, count0⟩
  else
    match rateLimit now rate0 with
    | (false, rate1) => ⟨Resp.tooMany GENERIC_TRY_AGAIN, rate1, count0⟩
    | (true, rate1) =>
      match req.body with
      | Except.error _ =>
          ⟨Resp.badRequest "UPLOAD_SIGN_FAILED" GENERIC_TRY_AGAIN, rate1, count0⟩
      | Except.ok meta =>
        match onBeforeGenerateToken cfg meta count0 with
        | (Except.ok _, st) =>
            ⟨Resp.ok, rate1, match st with | some c => some c | none => count0⟩
        | (Except.error msg, st) =>
            ⟨Resp.badRequest "UPLOAD_SIGN_FAILED" (catchMessage msg), rate1,
             match st with | some c => some c | none => count0⟩

end UploadSign

/-! ## Theorems about the claims -/

theorem jsonParse_empty : jsonParse "" = none := rfl

theorem fixTrailingCommas_empty : fixTrailingCommas "" = "" := rfl

/-- C1: whenever the first ` ```json ` fence's interior parses as JSON to a
value `v`, `extractJsonLoose` returns exactly `v`, whatever prose, braces or
later fences surround it. -/
theorem extractJsonLoose_fenced_valid (text s : String) (v : Json)
    (hf : fenceInterior text = some s) (hp : jsonParse s = some v) :
    extractJsonLoose text = some v := by
  have hs : s ≠ "" := by
    intro h
    rw [h, jsonParse_empty] at hp
    exact Option.noConfusion hp
  simp [extractJsonLoose, hf, hs, hp]

/-- C1 witness: the fenced value is returned even with prose, a stray brace
span before the fence and a second fence after it. -/
theorem extractJsonLoose_fenced_valid_witness :
    extractJsonLoose
      "prose \x7bnot json\x7d ```json \x7b\"a\": 1\x7d ``` and ```json 2 ```" =
      some (Json.obj [("a", Json.num 1)]) :=
  extractJsonLoose_fenced_valid _ " \x7b\"a\": 1\x7d " _ rfl (by with_unfolding_all rfl)

/-- C2: once a ` ```json ` fence is present, the result is a function of the
fence's interior alone — strict parse, else the trailing-comma repair, else
null — never the brace-span fallback. -/
theorem extractJsonLoose_fence_no_fallback (text s : String)
    (hf : fenceInterior text = some s) :
    extractJsonLoose text =
      (match jsonParse s with
       | some v => some v
       | none =>
           match jsonParse (fixTrailingCommas s) with
           | some v => some v
           | none => none) := by
  by_cases hs : s = ""
  · subst hs
    simp [extractJsonLoose, hf, jsonParse_empty, fixTrailingCommas_empty]
  · simp [extractJsonLoose, hf, hs]

/-- C2 witness: a fence with unparseable interior yields null although the
text outside the fence holds a perfectly parseable brace span. -/
theorem extractJsonLoose_fence_no_fallback_witness :
    extractJsonLoose "```json not json ``` \x7b\"b\": 2\x7d" = none := by
  rw [extractJsonLoose_fence_no_fallback "```json not json ``` \x7b\"b\": 2\x7d" " not json " rfl]
  with_unfolding_all rfl

/-- C3: the repository's own fixture: a fenced candidate with trailing
commas in both the object and the array parses after the repair. -/
theorem extractJsonLoose_trailing_commas :
    extractJsonLoose "```json\n\x7b\"a\":1, \"arr\":[1,2,],\x7d\n```" =
      some (Json.obj
        [("a", Json.num 1), ("arr", Json.arr [Json.num 1, Json.num 2])]) := by
  with_unfolding_all rfl

/-- C4: with `RATE_MAX` instants recorded and all still inside the trailing
window, a further attempt is rejected — the estimate handler answers it
with the too-many-requests response and the stored list is unchanged; once
every recorded instant is at least the window old, an attempt is admitted
(and the expired instants are pruned). -/
theorem rateLimit_window (now1 now2 : Nat) (arr : List Nat)
    (hlen : RATE_MAX ≤ arr.length)
    (hin : ∀ t ∈ arr, now1 - t < RATE_WINDOW_MS)
    (hout : ∀ t ∈ arr, t + RATE_WINDOW_MS ≤ now2) :
    rateLimit now1 arr = (false, arr) ∧ rateLimit now2 arr = (true, [now2]) ∧
    (∀ (cfg : Estimate.Config) (req : Estimate.Request) (oracle : Estimate.Oracle),
      req.method = "POST" →
      Estimate.originAllowed cfg.allowedOrigins req.origin = true →
      Estimate.handler cfg req oracle arr now1 =
        ⟨Estimate.Resp.tooMany GENERIC_TRY_AGAIN, arr, true⟩) := by
  have hreject : rateLimit now1 arr = (false, arr) := by
    have hfilter : arr.filter (fun t => now1 - t < RATE_WINDOW_MS) = arr := by
      rw [List.filter_eq_self]
      intro t ht
      simpa using hin t ht
    simp [rateLimit, hfilter, hlen]
  refine ⟨hreject, ?_, ?_⟩
  · have hfilter : arr.filter (fun t => now2 - t < RATE_WINDOW_MS) = [] := by
      rw [List.filter_eq_nil_iff]
      intro t ht
      have := hout t ht
      simp only [decide_eq_true_eq]
      omega
    simp [rateLimit, hfilter, RATE_MAX]
  · intro cfg req oracle hm hoa
    simp [Estimate.handler, hm, hoa, hreject]

/-- C4 witness: five requests at instants 0..4; a sixth at instant 10 is
rejected (the handler answering 429 with the state unchanged), and one at
600010 (the window fully elapsed from every instant) is admitted. -/
theorem rateLimit_window_witness :
    rateLimit 10 [0, 1, 2, 3, 4] = (false, [0, 1, 2, 3, 4]) ∧
    rateLimit 600010 [0, 1, 2, 3, 4] = (true, [600010]) ∧
    (∀ (cfg : Estimate.Config) (req : Estimate.Request) (oracle : Estimate.Oracle),
      req.method = "POST" →
      Estimate.originAllowed cfg.allowedOrigins req.origin = true →
      Estimate.handler cfg req oracle [0, 1, 2, 3, 4] 10 =
        ⟨Estimate.Resp.tooMany GENERIC_TRY_AGAIN, [0, 1, 2, 3, 4], true⟩) :=
  rateLimit_window 10 600010 [0, 1, 2, 3, 4] (by decide) (by decide) (by decide)

/-- C5: a POST whose Origin is absent or not in the allow-set is answered
403; the rate limiter is not invoked and the stored rate state is exactly
the input state. -/
theorem handler_forbidden_frame (cfg : Estimate.Config) (req : Estimate.Request)
    (oracle : Estimate.Oracle) (rate0 : List Nat) (now : Nat)
    (hm : req.method = "POST")
    (ho : req.origin = none ∨ ∃ o, req.origin = some o ∧ o ∉ cfg.allowedOrigins) :
    Estimate.handler cfg req oracle rate0 now =
      ⟨Estimate.Resp.forbidden, rate0, false⟩ := by
  have hoa : Estimate.originAllowed cfg.allowedOrigins req.origin = false := by
    rcases ho with h | ⟨o, h, hmem⟩
    · simp [Estimate.originAllowed, h]
    · simp [Estimate.originAllowed, h]
      intro hc
      exact absurd hc hmem
  simp [Estimate.handler, hm, hoa]

/-- C5 witness: a POST from an origin outside the allow-list. -/
theorem handler_forbidden_frame_witness :
    Estimate.handler
      ⟨["https://allowed.example"], FALLBACK_LINE_DEFAULT, 12, fun _ => true⟩
      ⟨"POST", some "https://evil.example", "1.2.3.4", Except.error ()⟩
      ⟨Except.error (), true⟩ [7] 99 =
      ⟨Estimate.Resp.forbidden, [7], false⟩ :=
  handler_forbidden_frame _ _ _ _ _ rfl
    (Or.inr ⟨"https://evil.example", rfl, by decide⟩)

/-- C6: a request that passes the method, origin and rate checks but whose
body object has no `description` key is answered 400 with an issue whose
path names `description`, and the caller's pruned rate list has the new
instant appended (rate admission precedes schema validation). -/
theorem handler_missing_description (cfg : Estimate.Config) (req : Estimate.Request)
    (oracle : Estimate.Oracle) (rate0 : List Nat) (now : Nat) (o : String)
    (fields : List (String × Json))
    (hm : req.method = "POST")
    (ho : req.origin = some o) (hmem : o ∈ cfg.allowedOrigins)
    (hrate : (rate0.filter (fun t => now - t < RATE_WINDOW_MS)).length < RATE_MAX)
    (hb : req.body = Except.ok (Json.obj fields))
    (hdesc : lookupField fields "description" = none) :
    ∃ issues,
      Estimate.handler cfg req oracle rate0 now =
        ⟨Estimate.Resp.badRequest issues,
         rate0.filter (fun t => now - t < RATE_WINDOW_MS) ++ [now], true⟩ ∧
      ZodIssue.mk "invalid_type" [PathSeg.field "description"] ∈ issues := by
  have hoa : Estimate.originAllowed cfg.allowedOrigins req.origin = true := by
    simp [Estimate.originAllowed, ho]
    exact hmem
  have hrl : rateLimit now rate0 =
      (true, rate0.filter (fun t => now - t < RATE_WINDOW_MS) ++ [now]) := by
    simp [rateLimit]
    omega
  have hcheck : checkString fields "description" 3 5000 =
      ([ZodIssue.mk "invalid_type" [PathSeg.field "description"]], none) := by
    simp [checkString, hdesc]
  refine ⟨(checkString fields "zip" 5 10).1 ++
      [ZodIssue.mk "invalid_type" [PathSeg.field "description"]] ++
      (checkUrls cfg.maxFiles cfg.urlValid fields).1, ?_, ?_⟩
  · simp [Estimate.handler, hm, hoa, hrl, hb, safeParseBody, hcheck]
  · simp

/-- C6 witness: a body with `zip` and `image_urls` but no `description`. -/
theorem handler_missing_description_witness :
    ∃ issues,
      Estimate.handler ⟨["https://allowed.example"], FALLBACK_LINE_DEFAULT, 12, fun _ => true⟩
        ⟨"POST", some "https://allowed.example", "203.0.113.5",
         Except.ok (Json.obj [("zip", Json.str "06111"), ("image_urls", Json.arr [])])⟩
        ⟨Except.error (), true⟩ [] 0 =
        ⟨Estimate.Resp.badRequest issues,
         ([] : List Nat).filter (fun t => 0 - t < RATE_WINDOW_MS) ++ [0], true⟩ ∧
      ZodIssue.mk "invalid_type" [PathSeg.field "description"] ∈ issues :=
  handler_missing_description _ _ _ [] 0 "https://allowed.example"
    [("zip", Json.str "06111"), ("image_urls", Json.arr [])] rfl rfl (by decide)
    (by decide) rfl rfl

/-- A concrete configuration used to exercise the handler theorems. -/
def demoConfig : Estimate.Config :=
  ⟨["https://allowed.example"], FALLBACK_LINE_DEFAULT, 12, fun _ => true⟩

/-- A schema-valid request body. -/
def demoBody : Json :=
  Json.obj
    [("zip", Json.str "06111"), ("description", Json.str "junk pile"),
     ("image_urls", Json.arr [])]

/-- A model reply whose first line mentions being outside the service area
and whose fenced JSON carries `serviceable: false`. -/
def demoModelText : String :=
  "Outside our service area\n```json\n\x7b\"serviceable\": false\x7d\n```"

/-- C7 counterexample: with the storage write failing, the handler answers
200 with the fallback body — serviceable `true`, the configured fallback
line, empty data — although the computed quote had serviceable `false` and
a customer line (the model's first line) different from the fallback. The
quote response is not what is returned. -/
theorem handler_put_failure_counterexample :
    Estimate.handler demoConfig
      ⟨"POST", some "https://allowed.example", "203.0.113.5", Except.ok demoBody⟩
      ⟨Except.ok demoModelText, false⟩ [] 0 =
      ⟨Estimate.Resp.ok true FALLBACK_LINE_DEFAULT (Json.obj []), [0], true⟩ ∧
    Estimate.serviceableFrom (extractJsonLoose (jsTrim demoModelText))
      (Estimate.customerLine0 FALLBACK_LINE_DEFAULT (jsTrim demoModelText)) = false ∧
    Estimate.customerLine0 FALLBACK_LINE_DEFAULT (jsTrim demoModelText) =
      "Outside our service area" ∧
    FALLBACK_LINE_DEFAULT ≠ "Outside our service area" := by
  refine ⟨?_, ?_, ?_, ?_⟩
  · with_unfolding_all rfl
  · with_unfolding_all rfl
  · with_unfolding_all rfl
  · decide

/-- C7 as amended: when an admitted, schema-valid request reaches a model
reply but the storage write fails, the handler still answers HTTP 200 (no
5xx) — with the safe fallback body (serviceable true, fallback line, empty
data), not the computed quote; the caller's rate slot stays consumed. -/
theorem handler_put_failure_fallback (cfg : Estimate.Config) (req : Estimate.Request)
    (oracle : Estimate.Oracle) (rate0 : List Nat) (now : Nat) (o : String)
    (bodyJson : Json) (body : RequestBody) (raw : String)
    (hm : req.method = "POST")
    (ho : req.origin = some o) (hmem : o ∈ cfg.allowedOrigins)
    (hrate : (rate0.filter (fun t => now - t < RATE_WINDOW_MS)).length < RATE_MAX)
    (hb : req.body = Except.ok bodyJson)
    (hv : safeParseBody cfg.maxFiles cfg.urlValid bodyJson = Except.ok body)
    (hmodel : oracle.modelText = Except.ok raw)
    (hput : oracle.putOk = false) :
    Estimate.handler cfg req oracle rate0 now =
      ⟨Estimate.Resp.ok true cfg.fallbackLine (Json.obj []),
       rate0.filter (fun t => now - t < RATE_WINDOW_MS) ++ [now], true⟩ := by
  have hoa : Estimate.originAllowed cfg.allowedOrigins req.origin = true := by
    simp [Estimate.originAllowed, ho]
    exact hmem
  have hrl : rateLimit now rate0 =
      (true, rate0.filter (fun t => now - t < RATE_WINDOW_MS) ++ [now]) := by
    simp [rateLimit]
    omega
  simp [Estimate.handler, hm, hoa, hrl, hb, hv, hmodel, hput]

/-- C7 witness: the amended behaviour at the concrete inputs of the
counterexample. -/
theorem handler_put_failure_fallback_witness :
    Estimate.handler demoConfig
      ⟨"POST", some "https://allowed.example", "203.0.113.5", Except.ok demoBody⟩
      ⟨Except.ok demoModelText, false⟩ [] 0 =
      ⟨Estimate.Resp.ok true FALLBACK_LINE_DEFAULT (Json.obj []), [0], true⟩ :=
  handler_put_failure_fallback demoConfig _ _ [] 0 "https://allowed.example"
    demoBody ⟨"06111", "junk pile", []⟩ demoModelText rfl rfl (by decide)
    (by decide) rfl (by with_unfolding_all rfl) rfl rfl

/-- C8 counterexample: with the default limits (12 files per batch), 13
token requests for one batch leave the stored per-batch counter at 13 —
above the limit — although only 12 attempts were admitted: a rejected
attempt still raises the stored count past the limit. -/
theorem runBatch_counterexample :
    UploadSign.runBatchAttempts ⟨[], 12, 12, 60⟩ ⟨none, none, some "batch-1"⟩ 13 =
      (some 13, 12) ∧ 12 < 13 :=
  ⟨by with_unfolding_all rfl, by decide⟩

/-- C8 as amended: the number of admitted uploads per batch never exceeds
the configured limit (further attempts are rejected), but every attempt —
rejected ones included — increments the stored counter, which therefore
equals the number of attempts and can exceed the limit. -/
theorem runBatch_admitted_bounded (cfg : UploadSign.Config) (meta : UploadSign.Meta)
    (n : Nat) (hid : meta.batchId.getD "" ≠ "")
    (hs : ¬ ((cfg.maxFileMB : Rat) < UploadSign.metaSizeMB meta))
    (ht : ¬ ((cfg.maxTotalMB : Rat) < UploadSign.metaTotalMB meta)) :
    (UploadSign.runBatchAttempts cfg meta n).2 = min n cfg.maxFiles ∧
    (UploadSign.runBatchAttempts cfg meta n).1 =
      (if n = 0 then none else some n) := by
  induction n with
  | zero => simp [UploadSign.runBatchAttempts]
  | succ n ih =>
      obtain ⟨ih1, ih2⟩ := ih
      have hgetD : ((if n = 0 then (none : Option Nat) else some n).getD 0) = n := by
        cases n <;> simp
      constructor
      · simp only [UploadSign.runBatchAttempts]
        rw [ih2, ih1]
        simp only [UploadSign.onBeforeGenerateToken, hgetD]
        rw [if_neg hs, if_neg ht, if_pos hid]
        by_cases hle : cfg.maxFiles < n + 1 <;> simp [hle] <;> omega
      · simp only [UploadSign.runBatchAttempts]
        rw [ih2]
        simp only [UploadSign.onBeforeGenerateToken, hgetD]
        rw [if_neg hs, if_neg ht, if_pos hid]
        by_cases hle : cfg.maxFiles < n + 1 <;> simp [hle]

/-- C8 witness: the amended statement at the counterexample's inputs. -/
theorem runBatch_admitted_bounded_witness :
    (UploadSign.runBatchAttempts ⟨[], 12, 12, 60⟩ ⟨none, none, some "batch-1"⟩ 13).2 =
      min 13 12 ∧
    (UploadSign.runBatchAttempts ⟨[], 12, 12, 60⟩ ⟨none, none, some "batch-1"⟩ 13).1 =
      (if 13 = 0 then none else some 13) :=
  runBatch_admitted_bounded ⟨[], 12, 12, 60⟩ ⟨none, none, some "batch-1"⟩ 13
    (by decide) (by decide) (by decide)

theorem splitComma_no_comma (cs : List Char) (h : ∀ c ∈ cs, c ≠ ',') :
    splitComma cs = [cs] := by
  induction cs with
  | nil => rfl
  | cons c cs ih =>
      have hc : c ≠ ',' := h c (by simp)
      rw [splitComma, if_neg hc, ih (fun d hd => h d (by simp [hd]))]

theorem parseAllowedOrigins_blank (s : String)
    (h : ∀ c ∈ s.data, isJsWs c = true) : parseAllowedOrigins s = [] := by
  have h1 : splitComma s.data = [s.data] := by
    refine splitComma_no_comma _ (fun c hc he => ?_)
    subst he
    exact absurd (h _ hc) (by decide)
  have hd : s.data.dropWhile isJsWs = [] := by
    rw [List.dropWhile_eq_nil_iff]
    exact fun c hc => h c hc
  have h2 : jsTrimList s.data = [] := by
    simp [jsTrimList, hd]
  simp [parseAllowedOrigins, h1, h2]

/-- C9: an unset or blank `ALLOWED_ORIGINS` yields the empty allow-list;
with it the estimate handler answers 403 to every POST (whatever the Origin
header, absent included) without touching rate state, while the
upload-signing handler skips the origin check entirely (its answer is never
403-forbidden). -/
theorem emptyAllowList_deny_vs_skip (env : String)
    (cfg : Estimate.Config) (req : Estimate.Request) (oracle : Estimate.Oracle)
    (rate0 : List Nat) (now : Nat)
    (ucfg : UploadSign.Config) (ureq : UploadSign.Request)
    (urate0 : List Nat) (unow : Nat) (ucount : Option Nat)
    (henv : ∀ c ∈ env.data, isJsWs c = true)
    (hc : cfg.allowedOrigins = []) (hm : req.method = "POST")
    (huc : ucfg.allowedOrigins = []) (hum : ureq.method = "POST") :
    parseAllowedOrigins env = [] ∧
    Estimate.handler cfg req oracle rate0 now =
      ⟨Estimate.Resp.forbidden, rate0, false⟩ ∧
    (UploadSign.handler ucfg ureq urate0 unow ucount).resp ≠
      UploadSign.Resp.forbidden := by
  refine ⟨parseAllowedOrigins_blank env henv, ?_, ?_⟩
  · have hoa : Estimate.originAllowed cfg.allowedOrigins req.origin = false := by
      cases h : req.origin <;> simp [Estimate.originAllowed, hc]
    simp [Estimate.handler, hm, hoa]
  · rcases hrl : rateLimit unow urate0 with ⟨b, l⟩
    rcases hb : ureq.body with u | meta
    · cases b <;> simp [UploadSign.handler, hum, huc, hrl, hb]
    · cases b
      · simp [UploadSign.handler, hum, huc, hrl, hb]
      · rcases hstep : UploadSign.onBeforeGenerateToken ucfg meta ucount with ⟨r, st⟩
        cases r <;> simp [UploadSign.handler, hum, huc, hrl, hb, hstep]

/-- C9 witness: blank environment, a POST with no Origin header to the
estimate handler, and a POST to the upload-signing handler. -/
theorem emptyAllowList_deny_vs_skip_witness :
    parseAllowedOrigins "  " = [] ∧
    Estimate.handler ⟨[], FALLBACK_LINE_DEFAULT, 12, fun _ => true⟩
      ⟨"POST", none, "203.0.113.5", Except.error ()⟩
      ⟨Except.error (), true⟩ [3] 50 =
      ⟨Estimate.Resp.forbidden, [3], false⟩ ∧
    (UploadSign.handler ⟨[], 12, 12, 60⟩
      ⟨"POST", none, "203.0.113.5", Except.error ()⟩ [] 0 none).resp ≠
      UploadSign.Resp.forbidden :=
  emptyAllowList_deny_vs_skip "  " _ _ _ [3] 50 _ _ [] 0 none
    (by decide) rfl rfl rfl rfl

/-- C10: on the success path the response's serviceable flag is computed by
`serviceableFrom`: it equals the extracted JSON's boolean `serviceable`
field when that exists, and otherwise is true exactly when the customer
line (the model text's first line) does not contain "outside"
case-insensitively. -/
theorem handler_serviceable_flag (cfg : Estimate.Config) (req : Estimate.Request)
    (oracle : Estimate.Oracle) (rate0 : List Nat) (now : Nat) (o : String)
    (bodyJson : Json) (body : RequestBody) (raw : String)
    (hm : req.method = "POST")
    (ho : req.origin = some o) (hmem : o ∈ cfg.allowedOrigins)
    (hrate : (rate0.filter (fun t => now - t < RATE_WINDOW_MS)).length < RATE_MAX)
    (hb : req.body = Except.ok bodyJson)
    (hv : safeParseBody cfg.maxFiles cfg.urlValid bodyJson = Except.ok body)
    (hmodel : oracle.modelText = Except.ok raw)
    (hput : oracle.putOk = true) :
    (Estimate.handler cfg req oracle rate0 now).resp =
      Estimate.Resp.ok
        (Estimate.serviceableFrom (extractJsonLoose (jsTrim raw))
          (Estimate.customerLine0 cfg.fallbackLine (jsTrim raw)))
        (if Estimate.customerLine0 cfg.fallbackLine (jsTrim raw) = "" then
          cfg.fallbackLine
         else Estimate.customerLine0 cfg.fallbackLine (jsTrim raw))
        ((extractJsonLoose (jsTrim raw)).getD (Json.obj [])) ∧
    (∀ b, Estimate.serviceableField (extractJsonLoose (jsTrim raw)) = some b →
      Estimate.serviceableFrom (extractJsonLoose (jsTrim raw))
        (Estimate.customerLine0 cfg.fallbackLine (jsTrim raw)) = b) ∧
    (Estimate.serviceableField (extractJsonLoose (jsTrim raw)) = none →
      (Estimate.serviceableFrom (extractJsonLoose (jsTrim raw))
          (Estimate.customerLine0 cfg.fallbackLine (jsTrim raw)) = true ↔
        ciContains ("outside".data)
          (Estimate.customerLine0 cfg.fallbackLine (jsTrim raw)).data = false)) := by
  have hoa : Estimate.originAllowed cfg.allowedOrigins req.origin = true := by
    simp [Estimate.originAllowed, ho]
    exact hmem
  have hrl : rateLimit now rate0 =
      (true, rate0.filter (fun t => now - t < RATE_WINDOW_MS) ++ [now]) := by
    simp [rateLimit]
    omega
  refine ⟨?_, ?_, ?_⟩
  · simp [Estimate.handler, hm, hoa, hrl, hb, hv, hmodel, hput]
  · intro b hbb
    simp [Estimate.serviceableFrom, hbb]
  · intro hn
    simp only [Estimate.serviceableFrom, hn]
    cases hci : ciContains ("outside".data)
        (Estimate.customerLine0 cfg.fallbackLine (jsTrim raw)).data <;> simp

/-- C10 witness: a model reply carrying `serviceable: false` in its fenced
JSON while the first line does not mention "outside": the response flag is
the field's value. -/
theorem handler_serviceable_flag_witness :
    (Estimate.handler demoConfig
      ⟨"POST", some "https://allowed.example", "203.0.113.5", Except.ok demoBody⟩
      ⟨Except.ok demoModelText, true⟩ [] 0).resp =
      Estimate.Resp.ok
        (Estimate.serviceableFrom (extractJsonLoose (jsTrim demoModelText))
          (Estimate.customerLine0 demoConfig.fallbackLine (jsTrim demoModelText)))
        (if Estimate.customerLine0 demoConfig.fallbackLine (jsTrim demoModelText) = ""
         then demoConfig.fallbackLine
         else Estimate.customerLine0 demoConfig.fallbackLine (jsTrim demoModelText))
        ((extractJsonLoose (jsTrim demoModelText)).getD (Json.obj [])) ∧
    (∀ b, Estimate.serviceableField (extractJsonLoose (jsTrim demoModelText)) = some b →
      Estimate.serviceableFrom (extractJsonLoose (jsTrim demoModelText))
        (Estimate.customerLine0 demoConfig.fallbackLine (jsTrim demoModelText)) = b) ∧
    (Estimate.serviceableField (extractJsonLoose (jsTrim demoModelText)) = none →
      (Estimate.serviceableFrom (extractJsonLoose (jsTrim demoModelText))
          (Estimate.customerLine0 demoConfig.fallbackLine (jsTrim demoModelText)) = true ↔
        ciContains ("outside".data)
          (Estimate.customerLine0 demoConfig.fallbackLine (jsTrim demoModelText)).data =
          false)) :=
  handler_serviceable_flag demoConfig _ _ [] 0 "https://allowed.example" demoBody
    ⟨"06111", "junk pile", []⟩ demoModelText rfl rfl (by decide) (by decide) rfl
    (by with_unfolding_all rfl) rfl rfl

end JunkEstimator
